import Mathlib

/-!
Verification of the rounding-ambiguity resolver and METAR decoding logic of the
Daily-Temperature-Prediction repository.

The Python sources are embedded shallowly:

* `Temperature_Prediction.py`: `nws_round`, `celsius_to_fahrenheit_range`,
  `interpret_5min_station_temp` become functions over `ℚ`/`ℤ` (Python floats are
  modelled by exact rationals; on every reachable input of these functions the
  exact rational value is far enough from rounding tie points that the float and
  the rational computations round identically, except at exact decimal halves,
  which dyadic floats represent exactly and which the model also treats exactly).
* `FAST_TEMP.py`: the T-field decode and `displayed`/`true` computations inside
  `scan`, and `parse_metar_time` with a model of Python's `datetime` calendar.
-/

namespace DailyTemp

/-- Python `int()` applied to a (real) number: truncation toward zero. -/
def pyInt (q : ℚ) : ℤ := if 0 ≤ q then ⌊q⌋ else ⌈q⌉

/-- `nws_round` from `Temperature_Prediction.py` (lines 81-86):
`int(Decimal(str(value)).quantize(Decimal('1'), rounding=ROUND_HALF_UP))`,
i.e. round to the nearest integer with ties going away from zero. -/
def nws_round (value : ℚ) : ℤ := if 0 ≤ value then ⌊value + 1/2⌋ else ⌈value - 1/2⌉

/-- Python's built-in `round(x)` (no digits argument): round to the nearest
integer with ties going to the even integer. Used by `scan` in `FAST_TEMP.py`
(lines 135-136). -/
def pyRound (q : ℚ) : ℤ :=
  if q - ⌊q⌋ < 1/2 then ⌊q⌋
  else if 1/2 < q - ⌊q⌋ then ⌊q⌋ + 1
  else if ⌊q⌋ % 2 = 0 then ⌊q⌋ else ⌊q⌋ + 1

/-- Python's `round(x, 1)`: round to one decimal place, ties to even. -/
def pyRound1 (q : ℚ) : ℚ := (pyRound (q * 10) : ℚ) / 10

/-- `celsius_to_fahrenheit_range` from `Temperature_Prediction.py`
(lines 88-118): candidate original Fahrenheit integers for a reported Celsius
reading.  The Python loop `for f in range(int(f_min) - 2, int(f_max) + 3)`
collects every integer `f` in the widened window whose NWS-rounded Celsius
conversion equals `temp_c`. -/
def celsius_to_fahrenheit_range (temp_c : ℚ) : List ℤ :=
  let c_min := temp_c - 1/2
  let c_max := temp_c + 1/2
  let f_min := c_min * 9 / 5 + 32
  let f_max := c_max * 9 / 5 + 32
  let lo := pyInt f_min - 2
  let hi := pyInt f_max + 3
  ((List.range (hi - lo).toNat).map (fun (i : ℕ) => lo + (i : ℤ))).filter
    (fun f => decide ((nws_round (((f : ℚ) - 32) * 5 / 9) : ℚ) = temp_c))

/-- Confidence tiers returned by `interpret_5min_station_temp`. -/
inductive Confidence where
  | high
  | medium
  | low
deriving DecidableEq

/-- Rank of a confidence tier: `high` is most confident. -/
def confRank : Confidence → ℕ
  | .high => 2
  | .medium => 1
  | .low => 0

/-- The confidence if-chain of `interpret_5min_station_temp`
(`Temperature_Prediction.py`, lines 133-140). -/
def classify_confidence (min_f max_f : ℤ) : Confidence :=
  if max_f - min_f ≤ 1 then .high
  else if max_f - min_f ≤ 2 then .medium
  else .low

/-- The tuple `(likely_actual_f, possible_range_low, possible_range_high,
confidence)` returned by `interpret_5min_station_temp`. -/
structure TempInterp where
  likely_f : ℚ
  min_f : ℚ
  max_f : ℚ
  confidence : Confidence
deriving DecidableEq

/-- `interpret_5min_station_temp` from `Temperature_Prediction.py`
(lines 120-147).  Python's `min`/`max` over a non-empty list are left folds of
the binary `min`/`max` over the tail, starting from the head. -/
def interpret_5min_station_temp (temp_c : ℚ) (temp_f_reported : ℚ) : TempInterp :=
  match celsius_to_fahrenheit_range temp_c with
  | [] => ⟨temp_f_reported, temp_f_reported, temp_f_reported, .low⟩
  | f :: fs =>
    let min_f := fs.foldl min f
    let max_f := fs.foldl max f
    ⟨((min_f : ℚ) + (max_f : ℚ)) / 2, (min_f : ℚ), (max_f : ℚ),
      classify_confidence min_f max_f⟩

/-! ### METAR decoding (`FAST_TEMP.py`) -/

/-- Numeric value of a decimal digit character. -/
def digitVal (c : Char) : ℕ := c.toNat - '0'.toNat

/-- Leftmost match of the Python regex `T([01])(\d{3})` over a character list
(`re.search` tries each start position from the left).  Returns the sign
character and the three-digit magnitude. -/
def findTField : List Char → Option (Char × ℕ)
  | t :: s :: d1 :: d2 :: d3 :: rest =>
    if t = 'T' ∧ (s = '0' ∨ s = '1') ∧ d1.isDigit ∧ d2.isDigit ∧ d3.isDigit then
      some (s, 100 * digitVal d1 + 10 * digitVal d2 + digitVal d3)
    else findTField (s :: d1 :: d2 :: d3 :: rest)
  | _ => none

/-- The T-field decode inside `scan` (`FAST_TEMP.py`, lines 130-133):
`c = int(m.group(2)) / 10.0; if m.group(1) == '1': c = -c`, and no match means
the record is skipped (`absent`). -/
def decode_t_field (raw : String) : Option ℚ :=
  match findTField raw.data with
  | none => none
  | some (sgn, mag) =>
    let c : ℚ := (mag : ℚ) / 10
    some (if sgn = '1' then -c else c)

/-- `true = round(f)` where `f = c * 9/5 + 32` (`FAST_TEMP.py`, lines 134-135):
the instrument Fahrenheit reading, rounded with Python's built-in `round`. -/
def true_value (c : ℚ) : ℤ := pyRound (c * 9 / 5 + 32)

/-- `displayed = round(round(c) * 9/5 + 32, 1)` (`FAST_TEMP.py`, line 136):
the NWS-displayed ("market") Fahrenheit value, computed with Python's built-in
`round` both times. -/
def displayed_value (c : ℚ) : ℚ := pyRound1 ((pyRound c : ℚ) * 9 / 5 + 32)

/-! ### Calendar model for `parse_metar_time` -/

/-- Gregorian leap-year test (as in Python's `calendar`/`datetime`). -/
def isLeap (y : ℤ) : Bool := (y % 4 == 0 && y % 100 != 0) || y % 400 == 0

/-- Number of days in a month of the proleptic Gregorian calendar. -/
def daysInMonth (y m : ℤ) : ℤ :=
  if m = 2 then (if isLeap y then 29 else 28)
  else if m = 4 ∨ m = 6 ∨ m = 9 ∨ m = 11 then 30
  else 31

/-- Days in months strictly before month `m` of year `y`. -/
def daysBeforeMonth (y m : ℤ) : ℤ :=
  (if m ≤ 1 then 0
   else if m = 2 then 31
   else if m = 3 then 59
   else if m = 4 then 90
   else if m = 5 then 120
   else if m = 6 then 151
   else if m = 7 then 181
   else if m = 8 then 212
   else if m = 9 then 243
   else if m = 10 then 273
   else if m = 11 then 304
   else 334)
  + (if 3 ≤ m ∧ isLeap y then 1 else 0)

/-- A Python naive `datetime` value.  `second` is rational so that a reference
time produced by `datetime.utcnow()` (which carries microseconds) is covered;
values built by the `datetime(...)` constructor in `parse_metar_time` always
have `second = 0`. -/
structure PyDateTime where
  year : ℤ
  month : ℤ
  day : ℤ
  hour : ℤ
  minute : ℤ
  second : ℚ
deriving DecidableEq

/-- The `datetime(year, month, day, hour, minute, 0)` constructor call:
`some` a value when the arguments form a valid date-time, `none` when Python
would raise `ValueError`. -/
def mkDatetime (y mo d h mi : ℤ) : Option PyDateTime :=
  if 1 ≤ y ∧ 1 ≤ mo ∧ mo ≤ 12 ∧ 1 ≤ d ∧ d ≤ daysInMonth y mo ∧
     0 ≤ h ∧ h ≤ 23 ∧ 0 ≤ mi ∧ mi ≤ 59
  then some ⟨y, mo, d, h, mi, 0⟩ else none

/-- `date.toordinal`-style day count (0001-01-01 is day 1) for the proleptic
Gregorian calendar. -/
def toOrdinal (y mo d : ℤ) : ℤ :=
  365 * (y - 1) + (y - 1).fdiv 4 - (y - 1).fdiv 100 + (y - 1).fdiv 400
    + daysBeforeMonth y mo + d

/-- Absolute time of a `PyDateTime` in seconds. -/
def toSeconds (dt : PyDateTime) : ℚ :=
  ((toOrdinal dt.year dt.month dt.day * 86400 + dt.hour * 3600 + dt.minute * 60 : ℤ) : ℚ)
    + dt.second

/-- `(a - b).days` for Python datetimes: a `timedelta` is normalized so that
`days` is the floor of the difference in 86400-second units. -/
def timedeltaDays (a b : PyDateTime) : ℤ := ⌊(toSeconds a - toSeconds b) / 86400⌋

/-- Result of `parse_metar_time` (`FAST_TEMP.py`, lines 27-60): `noMatch` when
the regex finds no `DDHHMMZ` field (Python returns `None`), `time` when a
timestamp string is returned, `valueError` when a `ValueError` escapes to the
caller. -/
inductive MetarTime where
  | noMatch
  | time (dt : PyDateTime)
  | valueError
deriving DecidableEq

/-- The previous month of `(year, month)`, with year rollover at January
(both fallback sites in `parse_metar_time` use this pattern). -/
def prevMonthYear (y mo : ℤ) : ℤ × ℤ := if mo = 1 then (y - 1, 12) else (y, mo - 1)

/-- The `except ValueError` branch of `parse_metar_time`: construct the
previous-month datetime; if that also raises, the exception escapes. -/
def metar_fallback (day hour minute : ℤ) (now : PyDateTime) : MetarTime :=
  match mkDatetime (prevMonthYear now.year now.month).1 (prevMonthYear now.year now.month).2
      day hour minute with
  | some dt => .time dt
  | none => .valueError

/-- The body of `parse_metar_time` after the regex has produced `day`, `hour`,
`minute` (`FAST_TEMP.py`, lines 41-60).  The current-month date is tried first;
if it lies more than 15 days in the future the previous month is substituted
(an invalid previous-month date raised inside the `try` is caught by the
`except` branch, which recomputes the same invalid date and lets the error
escape); if the current-month date is invalid the `except` branch falls back to
the previous month. -/
def resolve_metar_time (day hour minute : ℤ) (now : PyDateTime) : MetarTime :=
  match mkDatetime now.year now.month day hour minute with
  | some dt =>
    if 15 < timedeltaDays dt now then
      match mkDatetime (prevMonthYear now.year now.month).1 (prevMonthYear now.year now.month).2
          day hour minute with
      | some dt2 => .time dt2
      | none => metar_fallback day hour minute now
    else .time dt
  | none => metar_fallback day hour minute now

/-- A character counted by the regex word-boundary `\b` (`[A-Za-z0-9_]` for the
ASCII inputs at hand). -/
def isWordChar (c : Char) : Bool := c.isAlphanum || c == '_'

/-- Does the position before this character (given the preceding character, if
any) satisfy `\b` ahead of a digit? -/
def boundaryBefore : Option Char → Bool
  | none => true
  | some p => !isWordChar p

/-- Does the position after `Z` satisfy `\b`, given the remaining characters? -/
def boundaryAfter : List Char → Bool
  | [] => true
  | r :: _ => !isWordChar r

/-- Attempt to match `\b(\d{2})(\d{2})(\d{2})Z\b` at the current position. -/
def matchTimeAt (prev : Option Char) : List Char → Option (ℤ × ℤ × ℤ)
  | d1 :: d2 :: h1 :: h2 :: m1 :: m2 :: z :: rest =>
    if boundaryBefore prev && d1.isDigit && d2.isDigit && h1.isDigit && h2.isDigit
        && m1.isDigit && m2.isDigit && (z == 'Z') && boundaryAfter rest then
      some (((10 * digitVal d1 + digitVal d2 : ℕ) : ℤ),
            ((10 * digitVal h1 + digitVal h2 : ℕ) : ℤ),
            ((10 * digitVal m1 + digitVal m2 : ℕ) : ℤ))
    else none
  | _ => none

/-- Leftmost match of `\b(\d{2})(\d{2})(\d{2})Z\b`: `re.search` tries each
start position from the left. -/
def findTimeField (prev : Option Char) : List Char → Option (ℤ × ℤ × ℤ)
  | [] => none
  | c :: rest =>
    match matchTimeAt prev (c :: rest) with
    | some v => some v
    | none => findTimeField (some c) rest

/-- `parse_metar_time` from `FAST_TEMP.py` (lines 27-60), as a function of the
raw METAR text and the reference time `now` (`datetime.utcnow()` in Python). -/
def parse_metar_time (raw : String) (now : PyDateTime) : MetarTime :=
  match findTimeField none raw.data with
  | none => .noMatch
  | some (d, h, mi) => resolve_metar_time d h mi now

/-- A reference time as produced by `datetime.utcnow()`: all fields in range. -/
def ValidNow (now : PyDateTime) : Prop :=
  1 ≤ now.year ∧ 1 ≤ now.month ∧ now.month ≤ 12 ∧
  1 ≤ now.day ∧ now.day ≤ daysInMonth now.year now.month ∧
  0 ≤ now.hour ∧ now.hour ≤ 23 ∧ 0 ≤ now.minute ∧ now.minute ≤ 59 ∧
  0 ≤ now.second ∧ now.second < 60

/-! ### Helper lemmas -/

theorem pyInt_le {q : ℚ} {n : ℤ} (h : q ≤ (n : ℚ)) : pyInt q ≤ n := by
  have h1 : ⌈q⌉ ≤ n := Int.ceil_le.2 h
  have h2 : ⌊q⌋ ≤ ⌈q⌉ := Int.floor_le_ceil q
  unfold pyInt
  split_ifs <;> omega

theorem le_pyInt {q : ℚ} {n : ℤ} (h : (n : ℚ) ≤ q) : n ≤ pyInt q := by
  have h1 : n ≤ ⌊q⌋ := Int.le_floor.2 h
  have h2 : ⌊q⌋ ≤ ⌈q⌉ := Int.floor_le_ceil q
  unfold pyInt
  split_ifs <;> omega

/-- What `nws_round q = c` says about `q`: `c` is within a half of `q`. -/
theorem nws_round_bounds {q : ℚ} {c : ℤ} (h : nws_round q = c) :
    q - 1/2 ≤ (c : ℚ) ∧ (c : ℚ) ≤ q + 1/2 := by
  unfold nws_round at h
  split_ifs at h
  · subst h
    have h1 : (⌊q + 1/2⌋ : ℚ) ≤ q + 1/2 := Int.floor_le _
    have h2 : q + 1/2 < ⌊q + 1/2⌋ + 1 := Int.lt_floor_add_one _
    constructor <;> linarith
  · subst h
    have h1 : q - 1/2 ≤ (⌈q - 1/2⌉ : ℚ) := Int.le_ceil _
    have h2 : (⌈q - 1/2⌉ : ℚ) < q - 1/2 + 1 := Int.ceil_lt_add_one _
    constructor <;> linarith

/-- Conversely, a strictly-nearest integer is the value of `nws_round`. -/
theorem nws_round_eq {q : ℚ} {c : ℤ} (h1 : (c : ℚ) - 1/2 < q) (h2 : q < (c : ℚ) + 1/2) :
    nws_round q = c := by
  unfold nws_round
  split_ifs
  · exact Int.floor_eq_iff.2 ⟨by linarith, by linarith⟩
  · exact Int.ceil_eq_iff.2 ⟨by linarith, by linarith⟩

/-- Membership in the candidate list of `celsius_to_fahrenheit_range`, unfolded:
the integer lies in the widened Python `range` and its NWS-rounded Celsius
conversion equals `temp_c`. -/
theorem mem_celsius_to_fahrenheit_range (temp_c : ℚ) (f : ℤ) :
    f ∈ celsius_to_fahrenheit_range temp_c ↔
      pyInt ((temp_c - 1/2) * 9 / 5 + 32) - 2 ≤ f ∧
      f < pyInt ((temp_c + 1/2) * 9 / 5 + 32) + 3 ∧
      (nws_round (((f : ℚ) - 32) * 5 / 9) : ℚ) = temp_c := by
  have hdef : celsius_to_fahrenheit_range temp_c =
      ((List.range ((pyInt ((temp_c + 1/2) * 9 / 5 + 32) + 3 -
          (pyInt ((temp_c - 1/2) * 9 / 5 + 32) - 2)).toNat)).map
        (fun (i : ℕ) => pyInt ((temp_c - 1/2) * 9 / 5 + 32) - 2 + (i : ℤ))).filter
        (fun (f : ℤ) => decide ((nws_round (((f : ℚ) - 32) * 5 / 9) : ℚ) = temp_c)) := by
    with_unfolding_all rfl
  rw [hdef]
  simp only [List.mem_filter, List.mem_map, List.mem_range, decide_eq_true_eq]
  constructor
  · rintro ⟨⟨i, hilt, rfl⟩, hpred⟩
    refine ⟨?_, ?_, hpred⟩ <;> omega
  · rintro ⟨hlo, hhi, hpred⟩
    exact ⟨⟨(f - (pyInt ((temp_c - 1/2) * 9 / 5 + 32) - 2)).toNat, by omega, by omega⟩, hpred⟩

/-- Any integer Fahrenheit value whose NWS-rounded Celsius conversion is `c`
lies inside the widened search range used by `celsius_to_fahrenheit_range c`. -/
theorem candidate_in_window {c f : ℤ} (h : nws_round (((f : ℚ) - 32) * 5 / 9) = c) :
    pyInt (((c : ℚ) - 1/2) * 9 / 5 + 32) - 2 ≤ f ∧
    f < pyInt (((c : ℚ) + 1/2) * 9 / 5 + 32) + 3 := by
  obtain ⟨h1, h2⟩ := nws_round_bounds h
  have hfmin : ((c : ℚ) - 1/2) * 9 / 5 + 32 ≤ (f : ℚ) := by linarith
  have hfmax : (f : ℚ) ≤ ((c : ℚ) + 1/2) * 9 / 5 + 32 := by linarith
  have hlo : pyInt (((c : ℚ) - 1/2) * 9 / 5 + 32) ≤ f := pyInt_le hfmin
  have hhi : f ≤ pyInt (((c : ℚ) + 1/2) * 9 / 5 + 32) := le_pyInt hfmax
  omega

/-- The components of a successfully constructed Python `datetime`. -/
theorem mkDatetime_components {y mo d h mi : ℤ} {dt : PyDateTime}
    (hdt : mkDatetime y mo d h mi = some dt) :
    dt.year = y ∧ dt.month = mo ∧ dt.day = d ∧ dt.hour = h ∧ dt.minute = mi ∧
    dt.second = 0 := by
  unfold mkDatetime at hdt
  split_ifs at hdt
  cases hdt
  exact ⟨rfl, rfl, rfl, rfl, rfl, rfl⟩

/-- The validity conditions under which `datetime(...)` succeeds. -/
theorem mkDatetime_isSome_iff (y mo d h mi : ℤ) :
    (∃ dt, mkDatetime y mo d h mi = some dt) ↔
      1 ≤ y ∧ 1 ≤ mo ∧ mo ≤ 12 ∧ 1 ≤ d ∧ d ≤ daysInMonth y mo ∧
      0 ≤ h ∧ h ≤ 23 ∧ 0 ≤ mi ∧ mi ≤ 59 := by
  unfold mkDatetime
  split_ifs with hc
  · simp [hc]
  · simp [hc]

theorem foldl_min_mem (fs : List ℤ) (f : ℤ) : fs.foldl min f ∈ f :: fs := by
  induction fs generalizing f with
  | nil => simp
  | cons a as ih =>
    rw [List.foldl_cons]
    rcases List.mem_cons.1 (ih (min f a)) with h' | h'
    · rw [h']
      rcases min_choice f a with hm | hm <;> rw [hm]
      · exact List.mem_cons_self _ _
      · exact List.mem_cons.2 (Or.inr (List.mem_cons_self _ _))
    · exact List.mem_cons.2 (Or.inr (List.mem_cons.2 (Or.inr h')))

theorem foldl_min_le (fs : List ℤ) (f : ℤ) : ∀ x ∈ f :: fs, fs.foldl min f ≤ x := by
  induction fs generalizing f with
  | nil =>
    intro x hx
    rw [List.mem_singleton] at hx
    simp [hx]
  | cons a as ih =>
    intro x hx
    rw [List.foldl_cons]
    have hbase : as.foldl min (min f a) ≤ min f a := ih (min f a) _ (List.mem_cons_self _ _)
    rcases List.mem_cons.1 hx with h | h
    · rw [h]
      exact hbase.trans (min_le_left f a)
    · rcases List.mem_cons.1 h with h2 | h2
      · rw [h2]
        exact hbase.trans (min_le_right f a)
      · exact ih (min f a) x (List.mem_cons.2 (Or.inr h2))

theorem foldl_max_mem (fs : List ℤ) (f : ℤ) : fs.foldl max f ∈ f :: fs := by
  induction fs generalizing f with
  | nil => simp
  | cons a as ih =>
    rw [List.foldl_cons]
    rcases List.mem_cons.1 (ih (max f a)) with h' | h'
    · rw [h']
      rcases max_choice f a with hm | hm <;> rw [hm]
      · exact List.mem_cons_self _ _
      · exact List.mem_cons.2 (Or.inr (List.mem_cons_self _ _))
    · exact List.mem_cons.2 (Or.inr (List.mem_cons.2 (Or.inr h')))

theorem le_foldl_max (fs : List ℤ) (f : ℤ) : ∀ x ∈ f :: fs, x ≤ fs.foldl max f := by
  induction fs generalizing f with
  | nil =>
    intro x hx
    rw [List.mem_singleton] at hx
    simp [hx]
  | cons a as ih =>
    intro x hx
    rw [List.foldl_cons]
    have hbase : max f a ≤ as.foldl max (max f a) := ih (max f a) _ (List.mem_cons_self _ _)
    rcases List.mem_cons.1 hx with h | h
    · rw [h]
      exact (le_max_left f a).trans hbase
    · rcases List.mem_cons.1 h with h2 | h2
      · rw [h2]
        exact (le_max_right f a).trans hbase
      · exact ih (max f a) x (List.mem_cons.2 (Or.inr h2))

/-! ### Claim theorems -/

/-- C3: if the reconstructed candidate set for a reported Celsius value is
empty, `interpret_5min_station_temp` returns the degenerate result in which
likely, min and max all equal the naively-converted reported Fahrenheit value
(`temp_f_reported = temp_c * 9/5 + 32` at the call site) and the confidence is
`low`; it never fails on an empty candidate set. -/
theorem claim_C3 (temp_c : ℚ) (h : celsius_to_fahrenheit_range temp_c = []) :
    interpret_5min_station_temp temp_c (temp_c * 9 / 5 + 32) =
      ⟨temp_c * 9 / 5 + 32, temp_c * 9 / 5 + 32, temp_c * 9 / 5 + 32, .low⟩ := by
  unfold interpret_5min_station_temp
  rw [h]

theorem claim_C3_witness :
    celsius_to_fahrenheit_range (5/2) = [] ∧
    interpret_5min_station_temp (5/2) ((5/2) * 9 / 5 + 32) =
      ⟨(5/2) * 9 / 5 + 32, (5/2) * 9 / 5 + 32, (5/2) * 9 / 5 + 32, .low⟩ :=
  ⟨by with_unfolding_all rfl, claim_C3 (5/2) (by with_unfolding_all rfl)⟩

/-- C9: the confidence classifier of `interpret_5min_station_temp` is monotone
in the candidate-set width: a wider set is never assigned a strictly more
confident tier (`high > medium > low`). -/
theorem claim_C9 (min₁ max₁ min₂ max₂ : ℤ) (h : max₁ - min₁ ≤ max₂ - min₂) :
    confRank (classify_confidence min₂ max₂) ≤ confRank (classify_confidence min₁ max₁) := by
  unfold classify_confidence
  split_ifs <;> simp [confRank] <;> omega

theorem claim_C9_witness :
    (0 : ℤ) - 0 ≤ 3 - 0 ∧
    confRank (classify_confidence 0 3) ≤ confRank (classify_confidence 0 0) :=
  ⟨by decide, claim_C9 0 0 0 3 (by decide)⟩

/-- C5: `nws_round` does round half away from zero (at an exact half `k + 1/2`
it returns `k + 1` for nonnegative `k` and `k` for negative `k`, so `2.5 ↦ 3`
and `-2.5 ↦ -3`), but the `displayed` market value computed by `scan` in
`FAST_TEMP.py` uses Python's built-in `round` (half to even): at the reachable
T-field reading `2.5 °C` it yields `35.6 °F`, whereas the half-away-from-zero
convention yields `37.4 °F`. -/
theorem claim_C5 :
    (∀ k : ℤ, nws_round ((k : ℚ) + 1/2) = if 0 ≤ k then k + 1 else k) ∧
    nws_round (5/2) = 3 ∧ nws_round (-5/2) = -3 ∧
    displayed_value (5/2) = 178/5 ∧
    pyRound1 ((nws_round ((5/2 : ℚ)) : ℚ) * 9 / 5 + 32) = 187/5 := by
  refine ⟨?_, ?_, ?_, ?_, ?_⟩
  · intro k
    unfold nws_round
    by_cases hk : 0 ≤ k
    · have hq : (0 : ℚ) ≤ (k : ℚ) + 1/2 := by
        have : (0 : ℚ) ≤ (k : ℚ) := Int.cast_nonneg.2 hk
        linarith
      rw [if_pos hq, if_pos hk]
      have he : (k : ℚ) + 1/2 + 1/2 = ((k + 1 : ℤ) : ℚ) := by push_cast; ring
      rw [he, Int.floor_intCast]
    · have hk' : (k : ℚ) ≤ -1 := by exact_mod_cast (by omega : k ≤ -1)
      have hq : ¬ (0 : ℚ) ≤ (k : ℚ) + 1/2 := by linarith
      rw [if_neg hq, if_neg hk]
      have he : (k : ℚ) + 1/2 - 1/2 = ((k : ℤ) : ℚ) := by ring
      rw [he, Int.ceil_intCast]
  · with_unfolding_all rfl
  · with_unfolding_all rfl
  · with_unfolding_all rfl
  · with_unfolding_all rfl

/-- C7: the T-field decode of `scan` parses the sign digit (`'0'` positive,
`'1'` negative) and the three magnitude digits as tenths of a degree Celsius:
a METAR line containing `T00281` yields `+2.8 °C`, one containing `T10281`
yields `-2.8 °C`, and a line with no T-field yields an absent result (never
zero, never an error). -/
theorem claim_C7 :
    decode_t_field "KMIA 190351Z 00000KT 10SM CLR 03/01 A3012 RMK AO2 T00281" =
      some (14/5) ∧
    decode_t_field "KMIA 190351Z 00000KT 10SM CLR 03/01 A3012 RMK AO2" = none ∧
    decode_t_field "KORD 190351Z RMK T10281" = some (-(14/5)) := by
  refine ⟨?_, ?_, ?_⟩ <;> with_unfolding_all rfl

/-- C8: with reference UTC time 2024-02-03T10:00:00Z and raw field `300351Z`
(day 30), February has no day 30, so `parse_metar_time` falls back to the
previous month and returns January 30, 03:51 UTC of 2024. -/
theorem claim_C8 :
    parse_metar_time "300351Z" ⟨2024, 2, 3, 10, 0, 0⟩ =
      .time ⟨2024, 1, 30, 3, 51, 0⟩ := by
  with_unfolding_all rfl

/-- C2: round-trip: for every integer Fahrenheit value `f`, `f` is a member of
the candidate set computed by `celsius_to_fahrenheit_range` for
`c = nws_round((f - 32) * 5/9)`; in particular the ±2 widening of the Python
search range (`range(int(f_min) - 2, int(f_max) + 3)`) always recovers `f`. -/
theorem claim_C2 (f : ℤ) :
    f ∈ celsius_to_fahrenheit_range ((nws_round (((f : ℚ) - 32) * 5 / 9) : ℤ) : ℚ) := by
  have hwin := candidate_in_window (rfl :
    nws_round (((f : ℚ) - 32) * 5 / 9) = nws_round (((f : ℚ) - 32) * 5 / 9))
  rw [mem_celsius_to_fahrenheit_range]
  exact ⟨hwin.1, hwin.2, rfl⟩

/-- C1: for every integer reported Celsius value in -40..50, the candidate set
of `celsius_to_fahrenheit_range` is non-empty, and every member `f` satisfies
`nws_round((f - 32) * 5/9) = c`. -/
theorem claim_C1 (c : ℤ) (h₁ : -40 ≤ c) (h₂ : c ≤ 50) :
    celsius_to_fahrenheit_range (c : ℚ) ≠ [] ∧
    ∀ f ∈ celsius_to_fahrenheit_range (c : ℚ),
      nws_round (((f : ℚ) - 32) * 5 / 9) = c := by
  constructor
  · have hb := nws_round_bounds (rfl :
      nws_round ((c : ℚ) * 9 / 5 + 32) = nws_round ((c : ℚ) * 9 / 5 + 32))
    set f₀ := nws_round ((c : ℚ) * 9 / 5 + 32) with hf₀
    have hq : nws_round (((f₀ : ℚ) - 32) * 5 / 9) = c := by
      apply nws_round_eq
      · obtain ⟨hb1, _⟩ := hb
        linarith
      · obtain ⟨_, hb2⟩ := hb
        linarith
    have hmem : f₀ ∈ celsius_to_fahrenheit_range (c : ℚ) := by
      obtain ⟨hw1, hw2⟩ := candidate_in_window hq
      exact (mem_celsius_to_fahrenheit_range _ _).2 ⟨hw1, hw2, by rw [hq]⟩
    intro hnil
    rw [hnil] at hmem
    exact List.not_mem_nil _ hmem
  · intro f hf
    have hp := ((mem_celsius_to_fahrenheit_range _ f).1 hf).2.2
    exact_mod_cast hp

theorem claim_C1_witness :
    (-40 : ℤ) ≤ 0 ∧ (0 : ℤ) ≤ 50 ∧
    (celsius_to_fahrenheit_range ((0 : ℤ) : ℚ) ≠ [] ∧
     ∀ f ∈ celsius_to_fahrenheit_range ((0 : ℤ) : ℚ),
       nws_round (((f : ℚ) - 32) * 5 / 9) = 0) :=
  ⟨by decide, by decide, claim_C1 0 (by decide) (by decide)⟩

/-- The confidence tier assigned by `classify_confidence`, characterised by
the width of the candidate set. -/
theorem classify_confidence_iff (lo hi : ℤ) :
    (classify_confidence lo hi = Confidence.high ↔ hi - lo ≤ 1) ∧
    (classify_confidence lo hi = Confidence.medium ↔ 1 < hi - lo ∧ hi - lo ≤ 2) ∧
    (classify_confidence lo hi = Confidence.low ↔ 2 < hi - lo) := by
  unfold classify_confidence
  split_ifs with h1 h2 <;> refine ⟨?_, ?_, ?_⟩ <;> simp <;> omega

/-- Unfolding of `interpret_5min_station_temp` on a non-empty candidate list. -/
theorem interpret_eq_of_cons {temp_c r : ℚ} {f : ℤ} {fs : List ℤ}
    (hl : celsius_to_fahrenheit_range temp_c = f :: fs) :
    interpret_5min_station_temp temp_c r =
      ⟨(((fs.foldl min f : ℤ) : ℚ) + ((fs.foldl max f : ℤ) : ℚ)) / 2,
        ((fs.foldl min f : ℤ) : ℚ), ((fs.foldl max f : ℤ) : ℚ),
        classify_confidence (fs.foldl min f) (fs.foldl max f)⟩ := by
  unfold interpret_5min_station_temp
  rw [hl]

/-- C4: for every non-empty candidate set, `interpret_5min_station_temp`
returns `min_f`/`max_f` equal to the least and greatest candidates, the point
estimate `likely_f` equal to the midpoint `(min + max) / 2`, and the
confidence is exactly `high` iff `max - min ≤ 1`, `medium` iff
`1 < max - min ≤ 2`, `low` iff `max - min > 2`. -/
theorem claim_C4 (temp_c temp_f_reported : ℚ)
    (h : celsius_to_fahrenheit_range temp_c ≠ []) :
    ∃ lo hi : ℤ,
      lo ∈ celsius_to_fahrenheit_range temp_c ∧
      hi ∈ celsius_to_fahrenheit_range temp_c ∧
      (∀ f ∈ celsius_to_fahrenheit_range temp_c, lo ≤ f ∧ f ≤ hi) ∧
      (interpret_5min_station_temp temp_c temp_f_reported).min_f = (lo : ℚ) ∧
      (interpret_5min_station_temp temp_c temp_f_reported).max_f = (hi : ℚ) ∧
      (interpret_5min_station_temp temp_c temp_f_reported).likely_f =
        ((lo : ℚ) + (hi : ℚ)) / 2 ∧
      ((interpret_5min_station_temp temp_c temp_f_reported).confidence =
          Confidence.high ↔ hi - lo ≤ 1) ∧
      ((interpret_5min_station_temp temp_c temp_f_reported).confidence =
          Confidence.medium ↔ 1 < hi - lo ∧ hi - lo ≤ 2) ∧
      ((interpret_5min_station_temp temp_c temp_f_reported).confidence =
          Confidence.low ↔ 2 < hi - lo) := by
  cases hl : celsius_to_fahrenheit_range temp_c with
  | nil => exact absurd hl h
  | cons f fs =>
    refine ⟨fs.foldl min f, fs.foldl max f, ?_, ?_, ?_, ?_, ?_, ?_, ?_, ?_, ?_⟩
    · exact foldl_min_mem fs f
    · exact foldl_max_mem fs f
    · intro x hx
      exact ⟨foldl_min_le fs f x hx, le_foldl_max fs f x hx⟩
    · rw [interpret_eq_of_cons hl]
    · rw [interpret_eq_of_cons hl]
    · rw [interpret_eq_of_cons hl]
    · rw [interpret_eq_of_cons hl]
      exact (classify_confidence_iff _ _).1
    · rw [interpret_eq_of_cons hl]
      exact (classify_confidence_iff _ _).2.1
    · rw [interpret_eq_of_cons hl]
      exact (classify_confidence_iff _ _).2.2

theorem claim_C4_witness :
    ∃ lo hi : ℤ,
      lo ∈ celsius_to_fahrenheit_range (0 : ℚ) ∧
      hi ∈ celsius_to_fahrenheit_range (0 : ℚ) ∧
      (∀ f ∈ celsius_to_fahrenheit_range (0 : ℚ), lo ≤ f ∧ f ≤ hi) ∧
      (interpret_5min_station_temp 0 32).min_f = (lo : ℚ) ∧
      (interpret_5min_station_temp 0 32).max_f = (hi : ℚ) ∧
      (interpret_5min_station_temp 0 32).likely_f = ((lo : ℚ) + (hi : ℚ)) / 2 ∧
      ((interpret_5min_station_temp 0 32).confidence = Confidence.high ↔ hi - lo ≤ 1) ∧
      ((interpret_5min_station_temp 0 32).confidence = Confidence.medium ↔
        1 < hi - lo ∧ hi - lo ≤ 2) ∧
      ((interpret_5min_station_temp 0 32).confidence = Confidence.low ↔ 2 < hi - lo) :=
  claim_C4 0 32 (by
    have h32 : celsius_to_fahrenheit_range (0 : ℚ) = [32] := by with_unfolding_all rfl
    rw [h32]
    exact List.cons_ne_nil _ _)

/-- C6 counterexample: with reference UTC time 2024-03-01T00:00:00Z and raw
field `310351Z` (day 31 in 1..31, hour 3, minute 51), the current-month date
March 31 is valid but more than 15 days in the future, the previous-month
fallback builds February 31, which raises `ValueError`, and the `except`
handler rebuilds the same invalid date, so the error escapes to the caller:
`parse_metar_time` does not return a timestamp. -/
theorem claim_C6_counterexample :
    parse_metar_time "310351Z" ⟨2024, 3, 1, 0, 0, 0⟩ = .valueError := by
  with_unfolding_all rfl

/-- Every timestamp produced by the month-disambiguation logic keeps the
parsed day, hour and minute and has zero seconds; only year/month vary. -/
theorem resolve_metar_time_components {d h mi : ℤ} {now dt : PyDateTime}
    (hres : resolve_metar_time d h mi now = .time dt) :
    dt.day = d ∧ dt.hour = h ∧ dt.minute = mi ∧ dt.second = 0 ∧
    ((dt.year = now.year ∧ dt.month = now.month) ∨
     (dt.year = (prevMonthYear now.year now.month).1 ∧
      dt.month = (prevMonthYear now.year now.month).2)) := by
  unfold resolve_metar_time metar_fallback at hres
  cases hA : mkDatetime now.year now.month d h mi with
  | some dt0 =>
    rw [hA] at hres
    simp only [] at hres
    by_cases hfut : 15 < timedeltaDays dt0 now
    · rw [if_pos hfut] at hres
      cases hB : mkDatetime (prevMonthYear now.year now.month).1
          (prevMonthYear now.year now.month).2 d h mi with
      | some dtB =>
        rw [hB] at hres
        simp only [MetarTime.time.injEq] at hres
        subst hres
        obtain ⟨hy, hmo, hd, hh, hmi', hs⟩ := mkDatetime_components hB
        exact ⟨hd, hh, hmi', hs, Or.inr ⟨hy, hmo⟩⟩
      | none =>
        rw [hB] at hres
        simp at hres
    · rw [if_neg hfut] at hres
      simp only [MetarTime.time.injEq] at hres
      subst hres
      obtain ⟨hy, hmo, hd, hh, hmi', hs⟩ := mkDatetime_components hA
      exact ⟨hd, hh, hmi', hs, Or.inl ⟨hy, hmo⟩⟩
  | none =>
    rw [hA] at hres
    simp only [] at hres
    cases hB : mkDatetime (prevMonthYear now.year now.month).1
        (prevMonthYear now.year now.month).2 d h mi with
    | some dtB =>
      rw [hB] at hres
      simp only [MetarTime.time.injEq] at hres
      subst hres
      obtain ⟨hy, hmo, hd, hh, hmi', hs⟩ := mkDatetime_components hB
      exact ⟨hd, hh, hmi', hs, Or.inr ⟨hy, hmo⟩⟩
    | none =>
      rw [hB] at hres
      simp at hres

/-- C10 (implicit): whenever `parse_metar_time` returns a timestamp, its
day-of-month, hour and minute equal exactly the DD, HH and MM digits parsed
from the `DDHHMMZ` field and its seconds are zero; the month/year
disambiguation only ever changes the month and year components (to the current
or the previous month of the reference time). -/
theorem claim_C10 (raw : String) (now dt : PyDateTime)
    (h : parse_metar_time raw now = .time dt) :
    ∃ d hh mi : ℤ, findTimeField none raw.data = some (d, hh, mi) ∧
      dt.day = d ∧ dt.hour = hh ∧ dt.minute = mi ∧ dt.second = 0 ∧
      ((dt.year = now.year ∧ dt.month = now.month) ∨
       (dt.year = (prevMonthYear now.year now.month).1 ∧
        dt.month = (prevMonthYear now.year now.month).2)) := by
  unfold parse_metar_time at h
  cases hfind : findTimeField none raw.data with
  | none =>
    rw [hfind] at h
    simp at h
  | some trip =>
    obtain ⟨d, hh, mi⟩ := trip
    rw [hfind] at h
    simp only [] at h
    exact ⟨d, hh, mi, rfl, resolve_metar_time_components h⟩

theorem claim_C10_witness :
    ∃ d hh mi : ℤ, findTimeField none ("300351Z" : String).data = some (d, hh, mi) ∧
      (⟨2024, 1, 30, 3, 51, 0⟩ : PyDateTime).day = d ∧
      (⟨2024, 1, 30, 3, 51, 0⟩ : PyDateTime).hour = hh ∧
      (⟨2024, 1, 30, 3, 51, 0⟩ : PyDateTime).minute = mi ∧
      (⟨2024, 1, 30, 3, 51, 0⟩ : PyDateTime).second = 0 ∧
      (((⟨2024, 1, 30, 3, 51, 0⟩ : PyDateTime).year = (⟨2024, 2, 3, 10, 0, 0⟩ : PyDateTime).year ∧
        (⟨2024, 1, 30, 3, 51, 0⟩ : PyDateTime).month = (⟨2024, 2, 3, 10, 0, 0⟩ : PyDateTime).month) ∨
       ((⟨2024, 1, 30, 3, 51, 0⟩ : PyDateTime).year =
          (prevMonthYear (⟨2024, 2, 3, 10, 0, 0⟩ : PyDateTime).year
            (⟨2024, 2, 3, 10, 0, 0⟩ : PyDateTime).month).1 ∧
        (⟨2024, 1, 30, 3, 51, 0⟩ : PyDateTime).month =
          (prevMonthYear (⟨2024, 2, 3, 10, 0, 0⟩ : PyDateTime).year
            (⟨2024, 2, 3, 10, 0, 0⟩ : PyDateTime).month).2)) :=
  claim_C10 "300351Z" ⟨2024, 2, 3, 10, 0, 0⟩ ⟨2024, 1, 30, 3, 51, 0⟩
    (by with_unfolding_all rfl)

/-- If the parsed day does not exist in the reference month (but is at most
31), the previous month always accommodates it: a month with fewer than 31
days is never January, and its predecessor has 31 days. -/
theorem prev_month_valid (y mo d : ℤ) (hy : 1 ≤ y) (hmo1 : 1 ≤ mo) (hmo12 : mo ≤ 12)
    (hd31 : d ≤ 31) (hinval : daysInMonth y mo < d) :
    1 ≤ (prevMonthYear y mo).1 ∧ 1 ≤ (prevMonthYear y mo).2 ∧
    (prevMonthYear y mo).2 ≤ 12 ∧ d ≤ daysInMonth (prevMonthYear y mo).1 (prevMonthYear y mo).2 := by
  have hmo : mo ≠ 1 := by
    intro h1
    rw [h1] at hinval
    simp [daysInMonth] at hinval
    omega
  unfold prevMonthYear
  rw [if_neg hmo]
  refine ⟨hy, by omega, by omega, ?_⟩
  interval_cases mo <;> simp_all [daysInMonth, isLeap] <;> omega

/-- A `datetime(...)` call whose other arguments are in range fails only
because the day exceeds the month length. -/
theorem mkDatetime_none_day {y mo d h mi : ℤ} (hy : 1 ≤ y) (hmo1 : 1 ≤ mo) (hmo12 : mo ≤ 12)
    (hd1 : 1 ≤ d) (hh0 : 0 ≤ h) (hh23 : h ≤ 23) (hmi0 : 0 ≤ mi) (hmi59 : mi ≤ 59)
    (hnone : mkDatetime y mo d h mi = none) : daysInMonth y mo < d := by
  unfold mkDatetime at hnone
  split_ifs at hnone with hc
  by_contra hlt
  push_neg at hlt
  exact hc ⟨hy, hmo1, hmo12, hd1, hlt, hh0, hh23, hmi0, hmi59⟩

/-- The month-disambiguation of `resolve_metar_time` either returns a
timestamp, or ends in the escaping `ValueError`, and the latter happens only
on the 15-day-future path with a previous month that lacks the parsed day. -/
theorem resolve_total_or_crash (d h mi : ℤ) (now : PyDateTime) (hnow : ValidNow now)
    (hd1 : 1 ≤ d) (hd31 : d ≤ 31) (hh0 : 0 ≤ h) (hh23 : h ≤ 23)
    (hmi0 : 0 ≤ mi) (hmi59 : mi ≤ 59) :
    (∃ dt, resolve_metar_time d h mi now = .time dt) ∨
    (∃ dt, mkDatetime now.year now.month d h mi = some dt ∧
      15 < timedeltaDays dt now ∧
      mkDatetime (prevMonthYear now.year now.month).1 (prevMonthYear now.year now.month).2
        d h mi = none ∧
      resolve_metar_time d h mi now = .valueError) := by
  obtain ⟨hy, hmo1, hmo12, _, _, _, _, _, _, _, _⟩ := hnow
  cases hA : mkDatetime now.year now.month d h mi with
  | some dt0 =>
    by_cases hfut : 15 < timedeltaDays dt0 now
    · cases hB : mkDatetime (prevMonthYear now.year now.month).1
          (prevMonthYear now.year now.month).2 d h mi with
      | some dtB =>
        left
        refine ⟨dtB, ?_⟩
        unfold resolve_metar_time
        rw [hA]
        simp only []
        rw [if_pos hfut, hB]
      | none =>
        right
        refine ⟨dt0, rfl, hfut, rfl, ?_⟩
        unfold resolve_metar_time metar_fallback
        rw [hA]
        simp only []
        rw [if_pos hfut, hB]
    · left
      refine ⟨dt0, ?_⟩
      unfold resolve_metar_time
      rw [hA]
      simp only []
      rw [if_neg hfut]
  | none =>
    left
    have hday := mkDatetime_none_day hy hmo1 hmo12 hd1 hh0 hh23 hmi0 hmi59 hA
    obtain ⟨hpy, hpm1, hpm12, hpd⟩ := prev_month_valid now.year now.month d hy hmo1 hmo12 hd31 hday
    obtain ⟨dtB, hB⟩ := (mkDatetime_isSome_iff (prevMonthYear now.year now.month).1
      (prevMonthYear now.year now.month).2 d h mi).2
      ⟨hpy, hpm1, hpm12, hd1, hpd, hh0, hh23, hmi0, hmi59⟩
    refine ⟨dtB, ?_⟩
    unfold resolve_metar_time metar_fallback
    rw [hA]
    simp only []
    rw [hB]

/-- C6 (amended): for every raw METAR text whose `DDHHMMZ` field decodes to a
day in 1..31, an hour in 0..23 and a minute in 0..59, and every valid reference
UTC time, `parse_metar_time` returns a timestamp — a day that does not exist in
the assumed month is always resolved by the previous-month fallback — EXCEPT on
the path where the current-month date is valid but more than 15 days in the
future and the parsed day does not exist in the previous month: there the
`except` handler recomputes the same invalid date and a `ValueError` escapes to
the caller. -/
theorem claim_C6_amended (raw : String) (now : PyDateTime) (d h mi : ℤ)
    (hfind : findTimeField none raw.data = some (d, h, mi))
    (hnow : ValidNow now) (hd1 : 1 ≤ d) (hd31 : d ≤ 31)
    (hh0 : 0 ≤ h) (hh23 : h ≤ 23) (hmi0 : 0 ≤ mi) (hmi59 : mi ≤ 59) :
    (∃ dt, parse_metar_time raw now = .time dt) ∨
    (∃ dt, mkDatetime now.year now.month d h mi = some dt ∧
      15 < timedeltaDays dt now ∧
      mkDatetime (prevMonthYear now.year now.month).1 (prevMonthYear now.year now.month).2
        d h mi = none ∧
      parse_metar_time raw now = .valueError) := by
  have hp : parse_metar_time raw now = resolve_metar_time d h mi now := by
    unfold parse_metar_time
    rw [hfind]
  rw [hp]
  exact resolve_total_or_crash d h mi now hnow hd1 hd31 hh0 hh23 hmi0 hmi59

theorem claim_C6_amended_witness :
    (∃ dt, parse_metar_time "300351Z" ⟨2024, 2, 3, 10, 0, 0⟩ = .time dt) ∨
    (∃ dt, mkDatetime 2024 2 30 3 51 = some dt ∧
      15 < timedeltaDays dt ⟨2024, 2, 3, 10, 0, 0⟩ ∧
      mkDatetime (prevMonthYear 2024 2).1 (prevMonthYear 2024 2).2 30 3 51 = none ∧
      parse_metar_time "300351Z" ⟨2024, 2, 3, 10, 0, 0⟩ = .valueError) :=
  claim_C6_amended "300351Z" ⟨2024, 2, 3, 10, 0, 0⟩ 30 3 51
    (by with_unfolding_all rfl)
    ⟨by decide, by decide, by decide, by decide, by decide, by decide, by decide,
      by decide, by decide, by norm_num, by norm_num⟩
    (by decide) (by decide) (by decide) (by decide) (by decide) (by decide)

end DailyTemp
